import Mathlib

/-!
Verification of the tachyon-infra migration engine and release promotion gate.

The definitions below are a shallow embedding of the repository sources:

* `Tachyon.Migrate`    — `src/server/database/migrate.ts` (`DatabaseMigrator`,
  `SafetyCheck`, `ConfigurationLoader`, `ENVIRONMENT_CONFIGS`).
* `Tachyon.Connection` — `src/server/database/connection.ts`
  (`PostgreSQLManager.getConnection/query/transaction/logAuditEvent`).
* `Tachyon.Release`    — `src/scripts/create-release.sh` (manifest creation)
  plus the deployment-workflow operations described by the release docs.

External collaborators (the SQL engine, the sha256 hash, the filesystem, the
audit-table insert, the interactive prompt) are passed in as function
parameters, mirroring the narrow interfaces the sources use.
-/

namespace Tachyon

namespace Migrate

/-- `MigrationFile` from `src/server/database/migrations` (part_003). -/
structure MigrationFile where
  filename : String
  version : String
  description : String
  path : String
deriving Repr, DecidableEq

/-- One row of the `schema_migrations` tracking table
(`version UNIQUE, description, checksum, environment`; `applied_at` is a
database-side default timestamp and carries no engine logic, so it is
omitted). -/
structure MigrationRecord where
  version : String
  description : String
  checksum : String
  environment : String
deriving Repr, DecidableEq

/-- The database a run acts on: the application schema `σ` (mutated by the
migration SQL through the external engine) together with the
`schema_migrations` tracking table living in the same database. -/
structure DbState (σ : Type) where
  schema : σ
  tracking : List MigrationRecord
deriving Repr, DecidableEq

/-- `SELECT checksum, environment FROM schema_migrations WHERE version = $1`
(`DatabaseMigrator.isMigrationApplied`): first row whose version matches. -/
def lookupRecord (tracking : List MigrationRecord) (version : String) :
    Option MigrationRecord :=
  tracking.find? (fun r => r.version == version)

/-- `INSERT INTO schema_migrations (version, description, checksum,
environment) VALUES ...` — fails (unique-constraint violation) when the
version is already present. -/
def insertRecord (tracking : List MigrationRecord) (r : MigrationRecord) :
    Option (List MigrationRecord) :=
  if tracking.any (fun r0 => r0.version == r.version) then none
  else some (tracking ++ [r])

/-- The errors `applyMigration` can throw: the checksum-mismatch `Error`
(drift) and a failure inside the apply transaction. -/
inductive MigrationError where
  | driftDetected (version dbChecksum fileChecksum : String)
  | transactionFailure (version : String)
deriving Repr, DecidableEq

/-- `PostgreSQLManager.transaction` as used by the migrator: `BEGIN`, run the
callback, `COMMIT` on success; on any error `ROLLBACK` restores the
pre-transaction database state and the error is rethrown.  The second
component is the database state actually visible after the call. -/
def pgTransaction {σ : Type} (db : DbState σ)
    (callback : DbState σ → Except MigrationError (DbState σ)) :
    Except MigrationError Unit × DbState σ :=
  match callback db with
  | .ok db2 => (.ok (), db2)
  | .error e => (.error e, db)

/-- `DatabaseMigrator.applyMigration`: read the file, hash it, look the
version up in the tracking table; skip when the stored checksum matches,
throw on mismatch, and otherwise execute the SQL and insert the tracking
record inside one `pgTransaction`.  `sha256` is the content hash
(`generateChecksum`), `exec` the external SQL engine applying the file
content to the schema (`none` = SQL-level error), `fs` maps a path to the
file content (`readFileSync`), `envName` is `context.environment`. -/
def applyMigration {σ : Type} (sha256 : String → String)
    (exec : σ → String → Option σ) (fs : String → String) (envName : String)
    (db : DbState σ) (m : MigrationFile) :
    Except MigrationError Unit × DbState σ :=
  match lookupRecord db.tracking m.version with
  | some r =>
    if r.checksum == sha256 (fs m.path) then
      (.ok (), db)
    else
      (.error (.driftDetected m.version r.checksum (sha256 (fs m.path))), db)
  | none =>
    pgTransaction db (fun d =>
      match exec d.schema (fs m.path) with
      | none => .error (.transactionFailure m.version)
      | some s2 =>
        match insertRecord d.tracking
            ⟨m.version, m.description, sha256 (fs m.path), envName⟩ with
        | none => .error (.transactionFailure m.version)
        | some t2 => .ok ⟨s2, t2⟩)

/-- Outcome of a `migrate()` run: success with the final database and the
count of newly applied units, or the first error together with the database
state at that point (the process exits non-zero there, so later units are
never reached). -/
inductive RunResult (σ : Type) where
  | ok (db : DbState σ) (appliedCount : Nat)
  | failed (e : MigrationError) (db : DbState σ) (appliedCount : Nat)
deriving Repr, DecidableEq

/-- The `for (const migration of migrations)` loop of
`DatabaseMigrator.migrate`: look up `wasApplied` before the apply, run
`applyMigration`, increment `appliedCount` only for a freshly applied unit;
any thrown error aborts the whole run. -/
def migrateLoop {σ : Type} (sha256 : String → String)
    (exec : σ → String → Option σ) (fs : String → String) (envName : String)
    (db : DbState σ) (count : Nat) :
    List MigrationFile → RunResult σ
  | [] => .ok db count
  | m :: rest =>
    let wasApplied := (lookupRecord db.tracking m.version).isSome
    match applyMigration sha256 exec fs envName db m with
    | (.ok _, db2) =>
      migrateLoop sha256 exec fs envName db2
        (if wasApplied then count else count + 1) rest
    | (.error e, db2) => .failed e db2 count

/-- `DatabaseMigrator.migrate` after the health check and the idempotent
`createMigrationsTable` (a `CREATE TABLE IF NOT EXISTS`, a no-op on the
modelled tracking list): run the loop over the catalog with count 0. -/
def migrateRun {σ : Type} (sha256 : String → String)
    (exec : σ → String → Option σ) (fs : String → String) (envName : String)
    (db : DbState σ) (catalog : List MigrationFile) : RunResult σ :=
  migrateLoop sha256 exec fs envName db 0 catalog

/-- Insertion step for `ORDER BY version` (ascending) on the tracking rows. -/
def insertSorted (r : MigrationRecord) : List MigrationRecord → List MigrationRecord
  | [] => [r]
  | x :: xs =>
    if r.version ≤ x.version then r :: x :: xs else x :: insertSorted r xs

/-- `SELECT ... FROM schema_migrations ORDER BY version`. -/
def sortByVersion (l : List MigrationRecord) : List MigrationRecord :=
  l.foldr insertSorted []

/-- `DatabaseMigrator.status`: the applied list is the tracking table ordered
by version; the pending list is the catalog filtered by absence of the
version among the applied rows (`appliedVersions.has`). -/
def statusReport (tracking : List MigrationRecord)
    (catalog : List MigrationFile) :
    List MigrationRecord × List MigrationFile :=
  let applied := sortByVersion tracking
  let appliedVersions := applied.map (fun r => r.version)
  let pending := catalog.filter (fun m => !(appliedVersions.contains m.version))
  (applied, pending)

/-- `EnvironmentConfig` of `migrate.ts`. -/
structure EnvironmentConfig where
  name : String
  envFile : String
  requiresConfirmation : Bool
  confirmationKeyword : String
  description : String
deriving Repr, DecidableEq

/-- The single entry of `ENVIRONMENT_CONFIGS` (the `dev` and `prod` entries
are commented out in the source). -/
def localConfig : EnvironmentConfig :=
  { name := "local"
    envFile := ".env.local"
    requiresConfirmation := false
    confirmationKeyword := "yes"
    description := "Local Docker PostgreSQL (Safe)" }

/-- Indexing into `ENVIRONMENT_CONFIGS`: only `local` has an entry; any other
name yields `undefined` at runtime. -/
def environmentConfigs (name : String) : Option EnvironmentConfig :=
  if name == "local" then some localConfig else none

/-- JavaScript `value || default` on environment strings: `undefined` and the
empty string are falsy. -/
def jsOr (v : Option String) (d : String) : String :=
  match v with
  | some s => if s == "" then d else s
  | none => d

/-- `DatabaseConfig` of `migrate.ts`; `port` is `parseInt` of the variable
(`none` models `NaN` on a non-numeric string). -/
structure DatabaseConfig where
  host : String
  port : Option Nat
  database : String
  user : String
  password : String
  ssl : Bool
  sslRejectUnauthorized : Bool
deriving Repr, DecidableEq

/-- `ConfigurationLoader.loadLocalConfig` over the process environment
(after the optional dotenv load), defaults included — the `tacyhon_dev`
database-name typo is the source's own. -/
def loadLocalConfig (env : String → Option String) : DatabaseConfig :=
  { host := jsOr (env "POSTGRES_HOST") "localhost"
    port := (jsOr (env "POSTGRES_PORT") "5432").toNat?
    database := jsOr (env "POSTGRES_DB") "tacyhon_dev"
    user := jsOr (env "POSTGRES_USER") "tachyon_dev"
    password := jsOr (env "POSTGRES_PASSWORD") "dev_password"
    ssl := false
    sslRejectUnauthorized := false }

/-- `MigrationContext` of `migrate.ts`. -/
structure MigrationContext where
  environment : String
  config : EnvironmentConfig
  dbConfig : DatabaseConfig
  isCI : Bool
  autoConfirm : Bool
deriving Repr, DecidableEq

/-- `ConfigurationLoader.detectEnvironment`: `MIGRATION_ENV` unset (or empty,
which is falsy) throws; a value outside `local|dev|prod` throws; otherwise
the value is returned. -/
def detectEnvironment (migrationEnv : Option String) : Except String String :=
  match migrationEnv with
  | none => .error "MIGRATION_ENV not set. Use: npm run db:migrate:local|dev|prod"
  | some env =>
    if env == "" then
      .error "MIGRATION_ENV not set. Use: npm run db:migrate:local|dev|prod"
    else if ["local", "dev", "prod"].contains env then
      .ok env
    else
      .error ("Invalid MIGRATION_ENV: " ++ env ++ ". Must be: local, dev, or prod")

/-- `ConfigurationLoader.buildContext`: detect the environment, index
`ENVIRONMENT_CONFIGS` (an absent entry makes the immediately following
`config.description` access throw a TypeError), load the env file (an
external side effect folded into `env`), build the database config for
`local`, and read the CI / AUTO_CONFIRM flags. -/
def buildContext (migrationEnv : Option String) (env : String → Option String) :
    Except String MigrationContext :=
  match detectEnvironment migrationEnv with
  | .error e => .error e
  | .ok environment =>
    match environmentConfigs environment with
    | none => .error "TypeError: cannot read properties of undefined"
    | some config =>
      if environment == "local" then
        .ok { environment := environment
              config := config
              dbConfig := loadLocalConfig env
              isCI := env "CI" == some "true"
              autoConfirm := env "AUTO_CONFIRM" == some "true" }
      else
        .error ("Unsupported environment: " ++ environment)

/-- `SafetyCheck.promptConfirmation` with the single blocking read of the
operator's answer injected: return true at once in CI/auto-confirm mode or
when the environment needs no confirmation; otherwise compare the trimmed
answer against the keyword once (`answer.trim() === keyword`), no retry. -/
def promptConfirmation (ctx : MigrationContext) (answer : String) : Bool :=
  if ctx.isCI || ctx.autoConfirm then true
  else if !ctx.config.requiresConfirmation then true
  else answer.trim == ctx.config.confirmationKeyword

end Migrate

/-- `Except.isOk` as a plain boolean on results. -/
def exceptOk {ε α : Type} : Except ε α → Bool
  | .ok _ => true
  | .error _ => false

namespace Connection

/-- Failures of the operations in `connection.ts` that are allowed to
propagate to the caller. -/
inductive PgError where
  | connectionFailed
  | queryFailed
  | callbackFailed
deriving Repr, DecidableEq

/-- `PostgreSQLManager.logAuditEvent`: skip silently when the
`audit_events` table does not exist; otherwise attempt the insert through
the external audit sink `ia` (`none` = the insert threw) and catch and
discard any failure — the function itself never fails. -/
def logAuditEvent (tableExists : Bool)
    (ia : List String → String → Option (List String))
    (log : List String) (details : String) : List String :=
  if tableExists then
    match ia log details with
    | some log2 => log2
    | none => log
  else log

/-- `PostgreSQLManager.getConnection`: acquire a pool client (`acquire` =
the pool had a client), then emit a `data_access` audit event. -/
def getConnection (acquire : Bool) (tableExists : Bool)
    (ia : List String → String → Option (List String)) (log : List String) :
    Except PgError Unit × List String :=
  if acquire then
    (.ok (), logAuditEvent tableExists ia log "Connection acquired")
  else
    (.error .connectionFailed, log)

/-- `PostgreSQLManager.query`: get a connection, audit the query text, run
it through the external engine `runQ` (`none` = the query threw), release
the client. -/
def query {σ ρ : Type} (runQ : σ → String → Option (σ × ρ)) (acquire : Bool)
    (tableExists : Bool) (ia : List String → String → Option (List String))
    (db : σ) (log : List String) (text : String) :
    Except PgError (σ × ρ) × List String :=
  match getConnection acquire tableExists ia log with
  | (.error e, log1) => (.error e, log1)
  | (.ok _, log1) =>
    let log2 := logAuditEvent tableExists ia log1 ("Query: " ++ text)
    match runQ db text with
    | some (db2, rows) => (.ok (db2, rows), log2)
    | none => (.error .queryFailed, log2)

/-- `PostgreSQLManager.transaction`: get a connection, `BEGIN`, audit, run
the callback; `COMMIT` and audit on success, `ROLLBACK` and rethrow on
error. -/
def transaction {σ : Type} (acquire : Bool) (tableExists : Bool)
    (ia : List String → String → Option (List String)) (db : σ)
    (log : List String) (cb : σ → Except PgError σ) :
    Except PgError σ × List String :=
  match getConnection acquire tableExists ia log with
  | (.error e, log1) => (.error e, log1)
  | (.ok _, log1) =>
    let log2 := logAuditEvent tableExists ia log1 "Transaction started"
    match cb db with
    | .ok db2 =>
      (.ok db2, logAuditEvent tableExists ia log2 "Transaction committed")
    | .error e => (.error e, log2)

end Connection

namespace Release

/-- One entry of the manifest's `services` mapping. -/
structure ServiceRef where
  sha : String
  image : String
  tag : String
deriving Repr, DecidableEq

/-- `environments.staging` of the manifest; the empty string is the
"unset" value written at creation. -/
structure StagingMeta where
  deployed_at : String
  deployed_by : String
deriving Repr, DecidableEq

/-- `environments.production` of the manifest. -/
structure ProdMeta where
  deployed_at : String
  deployed_by : String
  approved_by : String
deriving Repr, DecidableEq

/-- The `environments` block of the manifest. -/
structure EnvironmentsMeta where
  staging : StagingMeta
  production : ProdMeta
deriving Repr, DecidableEq

/-- `releases/manifest.json`. -/
structure Manifest where
  version : String
  created_at : String
  description : String
  services : List (String × ServiceRef)
  environments : EnvironmentsMeta
deriving Repr, DecidableEq

/-- The document `create-release.sh` writes: the three fixed services with
`tag = sha`, an empty description, and both environment sub-objects filled
with empty strings. -/
def createReleaseManifest (version apiSha workersSha dbSha createdAt : String) :
    Manifest :=
  { version := version
    created_at := createdAt
    description := ""
    services :=
      [("tachyon-api", ⟨apiSha, "ghcr.io/tachyonapp/tachyon-api", apiSha⟩),
       ("tachyon-workers",
        ⟨workersSha, "ghcr.io/tachyonapp/tachyon-workers", workersSha⟩),
       ("tachyon-db-migrate",
        ⟨dbSha, "ghcr.io/tachyonapp/tachyon-db-migrate", dbSha⟩)]
    environments := ⟨⟨"", ""⟩, ⟨"", "", ""⟩⟩ }

/-- `create-release.sh` run against the current manifest store: the script
writes with `cat > "$MANIFEST_FILE"`, never reading the prior content, so
the prior manifest is overwritten unconditionally. -/
def createRelease (prior : Option Manifest)
    (version apiSha workersSha dbSha createdAt : String) : Manifest :=
  createReleaseManifest version apiSha workersSha dbSha createdAt

/-- Promotion-gate violations (§7 of the spec). -/
inductive PromotionError where
  | stagingNotDone
  | versionMismatch
deriving Repr, DecidableEq

/-- Modelled from the spec: `recordStagingDeploy(version, actor, timestamp)`
of §4.6 — implemented by the `deploy-staging.yml` workflow, which is not
among the sources; it populates `environments.staging`. -/
def recordStagingDeploy (m : Manifest) (actor timestamp : String) : Manifest :=
  { m with environments := { m.environments with staging := ⟨timestamp, actor⟩ } }

/-- Modelled from the spec: `recordProductionDeploy(version, actor,
approver, timestamp)` of §4.6 — implemented by the `deploy-prod.yml`
workflow, which is not among the sources. Per the spec it "fails with
StagingNotDoneError if `environments.staging.deployed_at` is unset for that
version"; otherwise it populates `environments.production`. -/
def recordProductionDeploy (m : Manifest) (actor approver timestamp : String) :
    Except PromotionError Manifest :=
  if m.environments.staging.deployed_at == "" then
    .error .stagingNotDone
  else
    .ok { m with
          environments :=
            { m.environments with production := ⟨timestamp, actor, approver⟩ } }

end Release

end Tachyon

namespace Tachyon.Migrate

/-- C1: For every migration unit whose version already has a tracking record
and whose current content digest differs from the stored checksum, `migrate`
fails with a DriftDetected error, the unit's content is not executed, and the
tracking record is left unchanged.  The run returns the drift error and the
database exactly as it was on entering the unit — schema untouched (the
result holds for every SQL engine `exec`, so the content was never executed)
and tracking table untouched. -/
theorem c1_drift_fails_without_mutation {σ : Type} (sha256 : String → String)
    (exec : σ → String → Option σ) (fs : String → String) (envName : String)
    (db : DbState σ) (m : MigrationFile) (r : MigrationRecord)
    (rest : List MigrationFile) (count : Nat)
    (hfound : lookupRecord db.tracking m.version = some r)
    (hdrift : r.checksum ≠ sha256 (fs m.path)) :
    migrateLoop sha256 exec fs envName db count (m :: rest) =
      .failed (.driftDetected m.version r.checksum (sha256 (fs m.path)))
        db count := by
  have hne : (r.checksum == sha256 (fs m.path)) = false := by
    simp [hdrift]
  simp [migrateLoop, applyMigration, hfound, hne]

/-- Witness for C1 at a concrete drifted store. -/
theorem c1_drift_fails_without_mutation_witness :
    migrateLoop (σ := Nat) (fun s => "sha-" ++ s) (fun s _ => some (s + 1))
      (fun _ => "A") "local"
      ⟨0, [⟨"001", "init", "sha-B", "local"⟩]⟩ 0
      [⟨"001_initial_schema.sql", "001", "init", "p1"⟩] =
      .failed (.driftDetected "001" "sha-B" "sha-A")
        ⟨0, [⟨"001", "init", "sha-B", "local"⟩]⟩ 0 :=
  c1_drift_fails_without_mutation (fun s => "sha-" ++ s)
    (fun s _ => some (s + 1)) (fun _ => "A") "local"
    ⟨0, [⟨"001", "init", "sha-B", "local"⟩]⟩
    ⟨"001_initial_schema.sql", "001", "init", "p1"⟩
    ⟨"001", "init", "sha-B", "local"⟩ [] 0 (by rfl) (by decide)

/-- Rollback helper: when the transaction callback errors, the visible
database state after `pgTransaction` is the pre-transaction state. -/
theorem pgTransaction_error {σ : Type} (db : DbState σ)
    (cb : DbState σ → Except MigrationError (DbState σ)) (e : MigrationError)
    (h : (pgTransaction db cb).1 = .error e) : (pgTransaction db cb).2 = db := by
  unfold pgTransaction at h ⊢
  cases hcb : cb db with
  | ok db2 => rw [hcb] at h; simp at h
  | error e0 => rfl

/-- In the pending branch, every error `applyMigration` can raise is a
transaction failure for that unit. -/
theorem applyMigration_error_of_pending {σ : Type} (sha256 : String → String)
    (exec : σ → String → Option σ) (fs : String → String) (envName : String)
    (db : DbState σ) (m : MigrationFile) (e : MigrationError)
    (hnone : lookupRecord db.tracking m.version = none)
    (herr : (applyMigration sha256 exec fs envName db m).1 = .error e) :
    e = .transactionFailure m.version := by
  unfold applyMigration at herr
  rw [hnone] at herr
  unfold pgTransaction at herr
  cases hex : exec db.schema (fs m.path) with
  | none => simp [hex] at herr; exact herr.symm
  | some s2 =>
    cases hins : insertRecord db.tracking
        ⟨m.version, m.description, sha256 (fs m.path), envName⟩ with
    | none => simp [hex, hins] at herr; exact herr.symm
    | some t2 => simp [hex, hins] at herr

/-- C4: For every pending migration unit, the execution of the unit's SQL
content and the insertion of its tracking record happen inside one
transaction: if either step fails, both the schema change and the tracking
insert are rolled back, leaving the store and the tracking table as they
were before that unit (and the raised error is the transaction failure for
that unit). -/
theorem c4_apply_is_transactional {σ : Type} (sha256 : String → String)
    (exec : σ → String → Option σ) (fs : String → String) (envName : String)
    (db : DbState σ) (m : MigrationFile) (e : MigrationError)
    (hnone : lookupRecord db.tracking m.version = none)
    (herr : (applyMigration sha256 exec fs envName db m).1 = .error e) :
    (applyMigration sha256 exec fs envName db m).2.schema = db.schema ∧
    (applyMigration sha256 exec fs envName db m).2.tracking = db.tracking ∧
    e = .transactionFailure m.version := by
  have hroll : (applyMigration sha256 exec fs envName db m).2 = db := by
    unfold applyMigration at herr ⊢
    rw [hnone] at herr ⊢
    exact pgTransaction_error db _ e herr
  exact ⟨by rw [hroll], by rw [hroll],
    applyMigration_error_of_pending sha256 exec fs envName db m e hnone herr⟩

/-- Witness for C4: a pending unit whose SQL execution fails leaves the
concrete database untouched. -/
theorem c4_apply_is_transactional_witness :
    (applyMigration (σ := Nat) (fun s => "sha-" ++ s) (fun _ _ => none)
        (fun _ => "A") "local" ⟨7, []⟩
        ⟨"001_initial_schema.sql", "001", "init", "p1"⟩).2.schema = 7 ∧
    (applyMigration (σ := Nat) (fun s => "sha-" ++ s) (fun _ _ => none)
        (fun _ => "A") "local" ⟨7, []⟩
        ⟨"001_initial_schema.sql", "001", "init", "p1"⟩).2.tracking = [] ∧
    MigrationError.transactionFailure "001" =
      MigrationError.transactionFailure "001" :=
  c4_apply_is_transactional (fun s => "sha-" ++ s) (fun _ _ => none)
    (fun _ => "A") "local" ⟨7, []⟩
    ⟨"001_initial_schema.sql", "001", "init", "p1"⟩
    (.transactionFailure "001") (by rfl) (by rfl)

/-- C5: Within one migrate run, units are processed strictly in catalog
order, and once any unit fails, no later unit in the catalog is attempted;
units applied earlier in the same run remain committed.  First conjunct: a
failure while processing the prefix is the result of the whole run, with the
database exactly as the failing prefix left it (later units never reach the
engine).  Second conjunct: a successful prefix hands its database and count
to the rest of the catalog in order. -/
theorem c5_ordered_fail_fast {σ : Type} (sha256 : String → String)
    (exec : σ → String → Option σ) (fs : String → String) (envName : String)
    (db : DbState σ) (count : Nat) (ms₁ ms₂ : List MigrationFile) :
    (∀ e db2 c2, migrateLoop sha256 exec fs envName db count ms₁ =
        .failed e db2 c2 →
      migrateLoop sha256 exec fs envName db count (ms₁ ++ ms₂) =
        .failed e db2 c2) ∧
    (∀ db2 c2, migrateLoop sha256 exec fs envName db count ms₁ = .ok db2 c2 →
      migrateLoop sha256 exec fs envName db count (ms₁ ++ ms₂) =
        migrateLoop sha256 exec fs envName db2 c2 ms₂) := by
  induction ms₁ generalizing db count with
  | nil =>
    refine ⟨fun e db2 c2 h => by simp [migrateLoop] at h, fun db2 c2 h => ?_⟩
    simp [migrateLoop] at h
    obtain ⟨rfl, rfl⟩ := h
    simp
  | cons m ms ih =>
    constructor
    · intro e db2 c2 h
      rw [List.cons_append]
      rw [migrateLoop] at h ⊢
      cases happ : applyMigration sha256 exec fs envName db m with
      | mk res dbn =>
        rw [happ] at h
        cases res with
        | ok u =>
          exact (ih dbn (if (lookupRecord db.tracking m.version).isSome
            then count else count + 1)).1 e db2 c2 h
        | error e0 =>
          exact h
    · intro db2 c2 h
      rw [List.cons_append]
      rw [migrateLoop] at h ⊢
      cases happ : applyMigration sha256 exec fs envName db m with
      | mk res dbn =>
        rw [happ] at h
        cases res with
        | ok u =>
          exact (ih dbn (if (lookupRecord db.tracking m.version).isSome
            then count else count + 1)).2 db2 c2 h
        | error e0 =>
          cases h

/-- Witness for C5: a concrete run whose first unit drifts fails the whole
run and never attempts the second unit. -/
theorem c5_ordered_fail_fast_witness :
    migrateLoop (σ := Nat) (fun s => "sha-" ++ s) (fun s _ => some (s + 1))
      (fun _ => "A") "local" ⟨0, [⟨"001", "init", "sha-B", "local"⟩]⟩ 0
      ([⟨"001_initial_schema.sql", "001", "init", "p1"⟩] ++
       [⟨"002_second.sql", "002", "second", "p2"⟩]) =
      .failed (.driftDetected "001" "sha-B" "sha-A")
        ⟨0, [⟨"001", "init", "sha-B", "local"⟩]⟩ 0 :=
  (c5_ordered_fail_fast (fun s => "sha-" ++ s) (fun s _ => some (s + 1))
      (fun _ => "A") "local" ⟨0, [⟨"001", "init", "sha-B", "local"⟩]⟩ 0
      [⟨"001_initial_schema.sql", "001", "init", "p1"⟩]
      [⟨"002_second.sql", "002", "second", "p2"⟩]).1
    (.driftDetected "001" "sha-B" "sha-A")
    ⟨0, [⟨"001", "init", "sha-B", "local"⟩]⟩ 0 (by rfl)

/-- A record found in a tracking prefix is still found after rows are
appended on the right. -/
theorem lookupRecord_append_left {t l : List MigrationRecord} {v : String}
    {r : MigrationRecord} (h : lookupRecord t v = some r) :
    lookupRecord (t ++ l) v = some r := by
  simp only [lookupRecord, List.find?_append] at h ⊢
  rw [h]
  rfl

/-- Looking a version up past a prefix that does not contain it. -/
theorem lookupRecord_append_right {t l : List MigrationRecord} {v : String}
    (h : lookupRecord t v = none) :
    lookupRecord (t ++ l) v = lookupRecord l v := by
  simp only [lookupRecord, List.find?_append] at h ⊢
  rw [h]
  rfl

/-- Inserting a version that is absent from the tracking table succeeds and
appends the row. -/
theorem insertRecord_of_absent {t : List MigrationRecord} {v : String}
    (h : lookupRecord t v = none) (d c e : String) :
    insertRecord t ⟨v, d, c, e⟩ = some (t ++ [⟨v, d, c, e⟩]) := by
  unfold insertRecord
  have hany : t.any (fun r0 => r0.version == v) = false := by
    rw [List.any_eq_false]
    intro x hx
    have hnx := List.find?_eq_none.mp h x hx
    simpa using hnx
  simp [hany]

/-- Skip branch of `applyMigration`: record present, checksums match. -/
theorem applyMigration_eq_skip {σ : Type} (sha256 : String → String)
    (exec : σ → String → Option σ) (fs : String → String) (envName : String)
    (db : DbState σ) (m : MigrationFile) (r : MigrationRecord)
    (hl : lookupRecord db.tracking m.version = some r)
    (hc : r.checksum = sha256 (fs m.path)) :
    applyMigration sha256 exec fs envName db m = (.ok (), db) := by
  simp [applyMigration, hl, hc]

/-- Drift branch of `applyMigration`: record present, checksums differ. -/
theorem applyMigration_eq_drift {σ : Type} (sha256 : String → String)
    (exec : σ → String → Option σ) (fs : String → String) (envName : String)
    (db : DbState σ) (m : MigrationFile) (r : MigrationRecord)
    (hl : lookupRecord db.tracking m.version = some r)
    (hc : r.checksum ≠ sha256 (fs m.path)) :
    applyMigration sha256 exec fs envName db m =
      (.error (.driftDetected m.version r.checksum (sha256 (fs m.path))), db) := by
  simp [applyMigration, hl, hc]

/-- Pending branch when the SQL execution fails: the transaction rolls
back. -/
theorem applyMigration_pending_exec_fail {σ : Type} (sha256 : String → String)
    (exec : σ → String → Option σ) (fs : String → String) (envName : String)
    (db : DbState σ) (m : MigrationFile)
    (hl : lookupRecord db.tracking m.version = none)
    (hex : exec db.schema (fs m.path) = none) :
    applyMigration sha256 exec fs envName db m =
      (.error (.transactionFailure m.version), db) := by
  simp [applyMigration, pgTransaction, hl, hex]

/-- Pending branch when the SQL execution succeeds: the transaction commits
the new schema together with the appended tracking row. -/
theorem applyMigration_pending_ok {σ : Type} (sha256 : String → String)
    (exec : σ → String → Option σ) (fs : String → String) (envName : String)
    (db : DbState σ) (m : MigrationFile) (s2 : σ)
    (hl : lookupRecord db.tracking m.version = none)
    (hex : exec db.schema (fs m.path) = some s2) :
    applyMigration sha256 exec fs envName db m =
      (.ok (), ⟨s2, db.tracking ++
        [⟨m.version, m.description, sha256 (fs m.path), envName⟩]⟩) := by
  simp [applyMigration, pgTransaction, hl, hex, insertRecord_of_absent hl]

/-- A successful run never rewrites or deletes tracking rows: any lookup
that succeeded before the run succeeds with the same row after it. -/
theorem migrateLoop_ok_preserves {σ : Type} (sha256 : String → String)
    (exec : σ → String → Option σ) (fs : String → String) (envName : String) :
    ∀ (ms : List MigrationFile) (db : DbState σ) (c : Nat) (db1 : DbState σ)
      (c1 : Nat),
    migrateLoop sha256 exec fs envName db c ms = .ok db1 c1 →
    ∀ v r, lookupRecord db.tracking v = some r →
      lookupRecord db1.tracking v = some r := by
  intro ms
  induction ms with
  | nil =>
    intro db c db1 c1 h v r hv
    simp [migrateLoop] at h
    obtain ⟨rfl, rfl⟩ := h
    exact hv
  | cons m rest ih =>
    intro db c db1 c1 h v r hv
    rw [migrateLoop] at h
    cases hl : lookupRecord db.tracking m.version with
    | some r0 =>
      by_cases hc : r0.checksum = sha256 (fs m.path)
      · rw [applyMigration_eq_skip sha256 exec fs envName db m r0 hl hc] at h
        exact ih db _ db1 c1 h v r hv
      · rw [applyMigration_eq_drift sha256 exec fs envName db m r0 hl hc] at h
        cases h
    | none =>
      cases hex : exec db.schema (fs m.path) with
      | none =>
        rw [applyMigration_pending_exec_fail sha256 exec fs envName db m hl
          hex] at h
        cases h
      | some s2 =>
        rw [applyMigration_pending_ok sha256 exec fs envName db m s2 hl
          hex] at h
        exact ih _ _ db1 c1 h v r (lookupRecord_append_left hv)

/-- After a successful run, every catalog unit has a tracking row whose
checksum is the digest of the unit's current content. -/
theorem migrateLoop_ok_records {σ : Type} (sha256 : String → String)
    (exec : σ → String → Option σ) (fs : String → String) (envName : String) :
    ∀ (ms : List MigrationFile) (db : DbState σ) (c : Nat) (db1 : DbState σ)
      (c1 : Nat),
    migrateLoop sha256 exec fs envName db c ms = .ok db1 c1 →
    ∀ m ∈ ms, ∃ r, lookupRecord db1.tracking m.version = some r ∧
      r.checksum = sha256 (fs m.path) := by
  intro ms
  induction ms with
  | nil =>
    intro db c db1 c1 h m hm
    simp at hm
  | cons m0 rest ih =>
    intro db c db1 c1 h m hm
    rw [migrateLoop] at h
    cases hl : lookupRecord db.tracking m0.version with
    | some r0 =>
      by_cases hc : r0.checksum = sha256 (fs m0.path)
      · rw [applyMigration_eq_skip sha256 exec fs envName db m0 r0 hl hc] at h
        rcases List.mem_cons.mp hm with rfl | hm2
        · exact ⟨r0,
            migrateLoop_ok_preserves sha256 exec fs envName rest db _ db1 c1 h
              m.version r0 hl, hc⟩
        · exact ih db _ db1 c1 h m hm2
      · rw [applyMigration_eq_drift sha256 exec fs envName db m0 r0 hl hc] at h
        cases h
    | none =>
      cases hex : exec db.schema (fs m0.path) with
      | none =>
        rw [applyMigration_pending_exec_fail sha256 exec fs envName db m0 hl
          hex] at h
        cases h
      | some s2 =>
        rw [applyMigration_pending_ok sha256 exec fs envName db m0 s2 hl
          hex] at h
        rcases List.mem_cons.mp hm with rfl | hm2
        · refine ⟨⟨m.version, m.description, sha256 (fs m.path), envName⟩,
            migrateLoop_ok_preserves sha256 exec fs envName rest _ _ db1 c1 h
              m.version _ ?_, rfl⟩
          have htr : (DbState.mk s2 (db.tracking ++
              [⟨m.version, m.description, sha256 (fs m.path), envName⟩])).tracking
              = db.tracking ++
                [⟨m.version, m.description, sha256 (fs m.path), envName⟩] := rfl
          rw [htr, lookupRecord_append_right hl]
          simp [lookupRecord]
        · exact ih _ _ db1 c1 h m hm2

/-- When every catalog unit already has a matching tracking row, the run
skips every unit: the database is untouched and the count stays put. -/
theorem migrateLoop_all_applied {σ : Type} (sha256 : String → String)
    (exec : σ → String → Option σ) (fs : String → String) (envName : String) :
    ∀ (ms : List MigrationFile) (db : DbState σ) (c : Nat),
    (∀ m ∈ ms, ∃ r, lookupRecord db.tracking m.version = some r ∧
        r.checksum = sha256 (fs m.path)) →
    migrateLoop sha256 exec fs envName db c ms = .ok db c := by
  intro ms
  induction ms with
  | nil => intro db c _; rfl
  | cons m rest ih =>
    intro db c hall
    obtain ⟨r, hl, hc⟩ := hall m (List.mem_cons_self m rest)
    rw [migrateLoop]
    rw [applyMigration_eq_skip sha256 exec fs envName db m r hl hc]
    simp only [hl, Option.isSome_some, if_true]
    exact ih db c (fun m2 hm2 => hall m2 (List.mem_cons_of_mem m hm2))

/-- C2 counterexample: for the starting tracking-store state holding a
drifted record for unit 001 (stored checksum differs from the digest of the
unchanged content), a migrate run fails with DriftDetected and applies
nothing, and a second run on the unchanged store is not a success reporting
zero newly-applied units — refuting the claim quantified over every starting
tracking-store state at this concrete input. -/
theorem c2_drifted_store_counterexample :
    (migrateRun (σ := Nat) (fun s => "sha-" ++ s) (fun s _ => some (s + 1))
        (fun _ => "A") "local" ⟨0, [⟨"001", "init", "sha-B", "local"⟩]⟩
        [⟨"001_initial_schema.sql", "001", "init", "p1"⟩] =
      .failed (.driftDetected "001" "sha-B" "sha-A")
        ⟨0, [⟨"001", "init", "sha-B", "local"⟩]⟩ 0) ∧
    (migrateRun (σ := Nat) (fun s => "sha-" ++ s) (fun s _ => some (s + 1))
        (fun _ => "A") "local" ⟨0, [⟨"001", "init", "sha-B", "local"⟩]⟩
        [⟨"001_initial_schema.sql", "001", "init", "p1"⟩] ≠
      .ok ⟨0, [⟨"001", "init", "sha-B", "local"⟩]⟩ 0) := by
  decide

/-- C2 (amended): For every catalog and every starting state on which the
first run succeeds, running migrate twice in sequence (with unchanged unit contents)
applies each unit exactly once; the second run finds every unit's record
present with a matching digest, skips it, and reports zero newly-applied
units — it returns the database of the first run unchanged with applied
count 0. -/
theorem c2_second_run_skips_all {σ : Type} (sha256 : String → String)
    (exec : σ → String → Option σ) (fs : String → String) (envName : String)
    (db db1 : DbState σ) (catalog : List MigrationFile) (n : Nat)
    (h : migrateRun sha256 exec fs envName db catalog = .ok db1 n) :
    migrateRun sha256 exec fs envName db1 catalog = .ok db1 0 ∧
    ∀ m ∈ catalog, ∃ r, lookupRecord db1.tracking m.version = some r ∧
      r.checksum = sha256 (fs m.path) := by
  unfold migrateRun at h ⊢
  have hrec := migrateLoop_ok_records sha256 exec fs envName catalog db 0 db1
    n h
  exact ⟨migrateLoop_all_applied sha256 exec fs envName catalog db1 0 hrec,
    hrec⟩

/-- Witness for C2 at a concrete one-unit catalog applied from an empty
store. -/
theorem c2_second_run_skips_all_witness :
    (migrateRun (σ := Nat) (fun s => "sha-" ++ s) (fun s _ => some (s + 1))
        (fun _ => "A") "local" ⟨1, [⟨"001", "init", "sha-A", "local"⟩]⟩
        [⟨"001_initial_schema.sql", "001", "init", "p1"⟩] =
      .ok ⟨1, [⟨"001", "init", "sha-A", "local"⟩]⟩ 0) ∧
    ∀ m ∈ [(⟨"001_initial_schema.sql", "001", "init", "p1"⟩ : MigrationFile)],
      ∃ r, lookupRecord
          (DbState.tracking (σ := Nat) ⟨1, [⟨"001", "init", "sha-A", "local"⟩]⟩)
          m.version = some r ∧
        r.checksum = (fun s => "sha-" ++ s) ((fun _ => "A") m.path) :=
  c2_second_run_skips_all (fun s => "sha-" ++ s) (fun s _ => some (s + 1))
    (fun _ => "A") "local" ⟨0, []⟩ ⟨1, [⟨"001", "init", "sha-A", "local"⟩]⟩
    [⟨"001_initial_schema.sql", "001", "init", "p1"⟩] 1 (by decide)

/-- Insertion into the sorted row list preserves the set of rows. -/
theorem mem_insertSorted {x r : MigrationRecord} {l : List MigrationRecord} :
    x ∈ insertSorted r l ↔ x = r ∨ x ∈ l := by
  induction l with
  | nil => simp [insertSorted]
  | cons y ys ih =>
    unfold insertSorted
    by_cases h : r.version ≤ y.version
    · simp [h]
    · simp [h, ih, List.mem_cons]
      tauto

/-- `ORDER BY version` only reorders the tracking rows. -/
theorem mem_sortByVersion {x : MigrationRecord} {l : List MigrationRecord} :
    x ∈ sortByVersion l ↔ x ∈ l := by
  induction l with
  | nil => simp [sortByVersion]
  | cons y ys ih =>
    show x ∈ insertSorted y (sortByVersion ys) ↔ x ∈ y :: ys
    rw [mem_insertSorted]
    simp [ih, List.mem_cons]

/-- C7 counterexample: for a tracking store holding a version that is not in
the catalog (here `999`), the applied set reported by `status` contains that
version while the catalog does not, so the reported applied and pending sets
do not partition the catalog — refuting the claim for arbitrary
tracking-store states at this concrete input. -/
theorem c7_stray_record_breaks_partition :
    ¬ ((("999" ∈ (statusReport [⟨"999", "stray", "c0", "local"⟩]
            [⟨"001_initial_schema.sql", "001", "init", "p1"⟩]).1.map
              MigrationRecord.version) ∨
        ("999" ∈ (statusReport [⟨"999", "stray", "c0", "local"⟩]
            [⟨"001_initial_schema.sql", "001", "init", "p1"⟩]).2.map
              MigrationFile.version)) ↔
       "999" ∈ ([⟨"001_initial_schema.sql", "001", "init", "p1"⟩] :
          List MigrationFile).map MigrationFile.version) := by
  decide

/-- C7 (amended): for every tracking-store state all of whose recorded
versions occur in the catalog, the applied and pending version sets reported
by `status` partition the catalog: their union equals the catalog's versions
and their intersection is empty (the emptiness of the intersection holds
without the restriction). -/
theorem c7_status_partitions_catalog (tracking : List MigrationRecord)
    (catalog : List MigrationFile)
    (hsub : ∀ r ∈ tracking, r.version ∈ catalog.map MigrationFile.version) :
    (∀ v, (v ∈ (statusReport tracking catalog).1.map MigrationRecord.version ∨
           v ∈ (statusReport tracking catalog).2.map MigrationFile.version) ↔
          v ∈ catalog.map MigrationFile.version) ∧
    (∀ v, v ∈ (statusReport tracking catalog).1.map MigrationRecord.version →
          v ∉ (statusReport tracking catalog).2.map MigrationFile.version) := by
  have happlied : ∀ v : String,
      v ∈ (statusReport tracking catalog).1.map MigrationRecord.version ↔
        ∃ r, r ∈ tracking ∧ r.version = v := by
    intro v
    show v ∈ (sortByVersion tracking).map MigrationRecord.version ↔ _
    constructor
    · intro hv
      rcases List.mem_map.mp hv with ⟨r, hr, rfl⟩
      exact ⟨r, mem_sortByVersion.mp hr, rfl⟩
    · rintro ⟨r, hr, rfl⟩
      exact List.mem_map.mpr ⟨r, mem_sortByVersion.mpr hr, rfl⟩
  have hcont : ∀ v : String,
      ((sortByVersion tracking).map (fun r => r.version)).contains v =
        true ↔ ∃ r, r ∈ tracking ∧ r.version = v := by
    intro v
    rw [List.contains_iff_exists_mem_beq]
    constructor
    · rintro ⟨w, hw, hbeq⟩
      rcases List.mem_map.mp hw with ⟨r, hr, rfl⟩
      exact ⟨r, mem_sortByVersion.mp hr, (eq_of_beq hbeq).symm⟩
    · rintro ⟨r, hr, rfl⟩
      exact ⟨r.version, List.mem_map.mpr ⟨r, mem_sortByVersion.mpr hr, rfl⟩,
        by simp⟩
  have hpending : ∀ v : String,
      v ∈ (statusReport tracking catalog).2.map MigrationFile.version ↔
        (∃ m, m ∈ catalog ∧ m.version = v) ∧
          ¬ ∃ r, r ∈ tracking ∧ r.version = v := by
    intro v
    show v ∈ (catalog.filter fun m =>
        !(((sortByVersion tracking).map (fun r => r.version)).contains
          m.version)).map MigrationFile.version ↔ _
    constructor
    · intro hv
      rcases List.mem_map.mp hv with ⟨m, hm, rfl⟩
      rcases List.mem_filter.mp hm with ⟨hmc, hnc⟩
      refine ⟨⟨m, hmc, rfl⟩, fun hex => ?_⟩
      rw [Bool.not_eq_true', ← Bool.not_eq_true] at hnc
      exact hnc ((hcont m.version).mpr hex)
    · rintro ⟨⟨m, hm, rfl⟩, hnone⟩
      refine List.mem_map.mpr ⟨m, List.mem_filter.mpr ⟨hm, ?_⟩, rfl⟩
      rw [Bool.not_eq_true']
      rw [← Bool.not_eq_true] at *
      intro hc
      exact hnone ((hcont m.version).mp hc)
  constructor
  · intro v
    constructor
    · rintro (hv | hv)
      · rcases (happlied v).mp hv with ⟨r, hr, rfl⟩
        exact hsub r hr
      · rcases ((hpending v).mp hv).1 with ⟨m, hm, rfl⟩
        exact List.mem_map.mpr ⟨m, hm, rfl⟩
    · intro hv
      by_cases hin : ∃ r, r ∈ tracking ∧ r.version = v
      · exact Or.inl ((happlied v).mpr hin)
      · rcases List.mem_map.mp hv with ⟨m, hm, rfl⟩
        exact Or.inr ((hpending m.version).mpr ⟨⟨m, hm, rfl⟩, hin⟩)
  · intro v hvA hvP
    exact ((hpending v).mp hvP).2 ((happlied v).mp hvA)

/-- Witness for C7 (amended) at a concrete in-catalog tracking store. -/
theorem c7_status_partitions_catalog_witness :
    ((∀ v, (v ∈ (statusReport [⟨"001", "init", "c1", "local"⟩]
            [⟨"001_initial_schema.sql", "001", "init", "p1"⟩,
             ⟨"002_second.sql", "002", "second", "p2"⟩]).1.map
              MigrationRecord.version ∨
           v ∈ (statusReport [⟨"001", "init", "c1", "local"⟩]
            [⟨"001_initial_schema.sql", "001", "init", "p1"⟩,
             ⟨"002_second.sql", "002", "second", "p2"⟩]).2.map
              MigrationFile.version) ↔
          v ∈ ([⟨"001_initial_schema.sql", "001", "init", "p1"⟩,
                ⟨"002_second.sql", "002", "second", "p2"⟩] :
              List MigrationFile).map MigrationFile.version) ∧
     (∀ v, v ∈ (statusReport [⟨"001", "init", "c1", "local"⟩]
            [⟨"001_initial_schema.sql", "001", "init", "p1"⟩,
             ⟨"002_second.sql", "002", "second", "p2"⟩]).1.map
              MigrationRecord.version →
          v ∉ (statusReport [⟨"001", "init", "c1", "local"⟩]
            [⟨"001_initial_schema.sql", "001", "init", "p1"⟩,
             ⟨"002_second.sql", "002", "second", "p2"⟩]).2.map
              MigrationFile.version)) :=
  c7_status_partitions_catalog [⟨"001", "init", "c1", "local"⟩]
    [⟨"001_initial_schema.sql", "001", "init", "p1"⟩,
     ⟨"002_second.sql", "002", "second", "p2"⟩]
    (by decide)

/-- C8: The confirmation gate returns Proceed immediately whenever the
automated flag is set (`isCI` or `autoConfirm`) or the environment does not
require confirmation; otherwise it proceeds exactly when the operator's
input, after whitespace trimming, is a case-sensitive exact match of the
configured keyword (a single comparison — any non-matching input yields
false, i.e. abort, with no retry). -/
theorem c8_confirmation_gate (ctx : MigrationContext) (answer : String) :
    promptConfirmation ctx answer = true ↔
      (ctx.isCI = true ∨ ctx.autoConfirm = true ∨
       ctx.config.requiresConfirmation = false ∨
       answer.trim = ctx.config.confirmationKeyword) := by
  unfold promptConfirmation
  by_cases h1 : ctx.isCI <;> by_cases h2 : ctx.autoConfirm <;>
    by_cases h3 : ctx.config.requiresConfirmation <;>
      simp [h1, h2, h3]

/-- C10: Building the migration context succeeds exactly when
`MIGRATION_ENV` is `local`: an unset or unlisted value is rejected by
`detectEnvironment`, while `dev` and `prod` pass the validity check but
have no entry in `ENVIRONMENT_CONFIGS`, so `buildContext` throws for every
value other than `local` (for every process environment). -/
theorem c10_build_context_local_only (migrationEnv : Option String)
    (env : String → Option String) :
    (exceptOk (buildContext migrationEnv env) = true ↔
      migrationEnv = some "local") ∧
    detectEnvironment (some "dev") = .ok "dev" ∧
    detectEnvironment (some "prod") = .ok "prod" ∧
    environmentConfigs "dev" = none ∧
    environmentConfigs "prod" = none := by
  refine ⟨⟨fun hok => ?_, fun hl => by rw [hl]; rfl⟩, rfl, rfl, rfl, rfl⟩
  by_contra hne
  have hfalse : exceptOk (buildContext migrationEnv env) = false := by
    cases migrationEnv with
    | none => rfl
    | some s =>
      have hs : s ≠ "local" := fun h => hne (by rw [h])
      by_cases he : s = ""
      · subst he; rfl
      · by_cases hd : s = "dev"
        · subst hd; rfl
        · by_cases hp : s = "prod"
          · subst hp; rfl
          · unfold buildContext detectEnvironment
            simp [he, hs, hd, hp, exceptOk]
  rw [hok] at hfalse
  cases hfalse

end Tachyon.Migrate

namespace Tachyon.Connection

/-- C9: Audit-log emission failures never propagate to the caller: the
success/failure outcome of connection acquisition, a query, and a
transaction is identical for any two audit sinks (and any two prior audit
logs), in particular for a sink that always fails — the failure inside
`logAuditEvent` is caught and discarded at the call site. -/
theorem c9_audit_failures_contained {σ ρ : Type}
    (runQ : σ → String → Option (σ × ρ)) (acquire tableExists : Bool)
    (ia1 ia2 : List String → String → Option (List String))
    (db : σ) (log1 log2 : List String) (text : String)
    (cb : σ → Except PgError σ) :
    (getConnection acquire tableExists ia1 log1).1 =
      (getConnection acquire tableExists ia2 log2).1 ∧
    (query runQ acquire tableExists ia1 db log1 text).1 =
      (query runQ acquire tableExists ia2 db log2 text).1 ∧
    (transaction acquire tableExists ia1 db log1 cb).1 =
      (transaction acquire tableExists ia2 db log2 cb).1 := by
  refine ⟨?_, ?_, ?_⟩
  · cases acquire <;> rfl
  · cases acquire <;> cases hr : runQ db text <;>
      simp [query, getConnection, hr]
  · cases acquire <;> cases hc : cb db <;>
      simp [transaction, getConnection, hc]

end Tachyon.Connection

namespace Tachyon.Release

/-- C3: A freshly created manifest starts with both environment sub-objects
empty; `recordProductionDeploy` on a manifest whose staging metadata is
unset fails with StagingNotDoneError; and production deployment metadata can
only be recorded when the staging metadata is already set (staging-first
invariant). -/
theorem c3_staging_first (version apiSha workersSha dbSha createdAt actor
    approver ts : String) (m : Manifest) :
    ((createReleaseManifest version apiSha workersSha dbSha
        createdAt).environments.staging = ⟨"", ""⟩ ∧
     (createReleaseManifest version apiSha workersSha dbSha
        createdAt).environments.production = ⟨"", "", ""⟩) ∧
    (m.environments.staging.deployed_at = "" →
      recordProductionDeploy m actor approver ts = .error .stagingNotDone) ∧
    (∀ m2, recordProductionDeploy m actor approver ts = .ok m2 →
      m.environments.staging.deployed_at ≠ "") := by
  refine ⟨⟨rfl, rfl⟩, fun h => ?_, fun m2 hok h => ?_⟩
  · simp [recordProductionDeploy, h]
  · simp [recordProductionDeploy, h] at hok

/-- Witness for C3: production promotion of a freshly created manifest is
rejected with StagingNotDoneError. -/
theorem c3_staging_first_witness :
    recordProductionDeploy
      (createReleaseManifest "0.2.0" "abc1234" "def5678" "ghi9012" "t0")
      "engineer" "approver" "t2" = .error .stagingNotDone :=
  (c3_staging_first "0.2.0" "abc1234" "def5678" "ghi9012" "t0" "engineer"
    "approver" "t2"
    (createReleaseManifest "0.2.0" "abc1234" "def5678" "ghi9012" "t0")).2.1
    rfl

/-- C6 counterexample: running `create-release.sh` for a version that
already exists in the store does not fail and does not keep the existing
manifest — the prior manifest for the very same version is replaced by the
freshly generated one, refuting both the creation failure and the
never-replaced parts of the claim at this concrete input. -/
theorem c6_create_overwrites_existing_version :
    createRelease
      (some (createReleaseManifest "0.2.0" "abc1234" "def5678" "ghi9012"
        "t0"))
      "0.2.0" "aaa1111" "bbb2222" "ccc3333" "t1" ≠
      createReleaseManifest "0.2.0" "abc1234" "def5678" "ghi9012" "t0" := by
  decide

/-- C6 (amended): `create-release.sh` never inspects the existing manifest
store: for every prior store state it succeeds and unconditionally
overwrites the store with the freshly generated manifest for the requested
version. -/
theorem c6_create_release_always_overwrites (prior : Option Manifest)
    (version apiSha workersSha dbSha createdAt : String) :
    createRelease prior version apiSha workersSha dbSha createdAt =
      createReleaseManifest version apiSha workersSha dbSha createdAt ∧
    (createRelease prior version apiSha workersSha dbSha
      createdAt).version = version :=
  ⟨rfl, rfl⟩

end Tachyon.Release
